import Mathlib

/-!
Shallow embedding of the Quiet-Hours-Scheduler reminder engine.

Times are modelled as `Int` milliseconds since the epoch (JavaScript `Date`
values compare by their millisecond timestamps; `date-fns` `addMinutes now m`
is `now + m * 60000`).  Mongo collections are modelled as Lean lists; the
atomic single-document operations the code relies on (`create` against a
unique index, `findByIdAndUpdate`, `deleteOne`, `deleteMany`) are modelled as
the corresponding pure list transformations.  Fallible external collaborators
(the e-mail dispatcher, the Supabase mirror) are modelled by outcome
parameters supplied by the environment.
-/

namespace QuietHours

/-- One millisecond-count minute, as used by date-fns addMinutes. -/
def minuteMs : Int := 60000

/-- Mongo StudyBlock document (models.ts StudyBlockSchema).  `id` stands for
the Mongo `_id`; `supabaseUserId` is the owning user's id. -/
structure StudyBlock where
  id : Nat
  supabaseUserId : Nat
  title : String
  startTime : Int
  endTime : Int
  reminderSent : Bool
  isActive : Bool
  deriving DecidableEq

/-- Mongo User document (models.ts UserSchema). -/
structure UserRec where
  supabaseId : Nat
  email : String
  name : String
  deriving DecidableEq

/-- Mongo JobLock document (models.ts JobLockSchema). -/
structure JobLock where
  jobType : String
  blockId : Nat
  userId : Nat
  lockedAt : Int
  expiresAt : Int
  deriving DecidableEq

/-- Supabase study_blocks mirror row, linked to Mongo by `mongoId`. -/
structure MirrorRec where
  mongoId : Nat
  userId : Nat
  title : String
  startTime : Int
  endTime : Int
  reminderSent : Bool
  deriving DecidableEq

/-- The two stores plus the lock collection.  `nextId` models Mongo object-id
generation: each created block receives a fresh id. -/
structure DB where
  nextId : Nat
  blocks : List StudyBlock
  users : List UserRec
  locks : List JobLock
  mirror : List MirrorRec
  deriving DecidableEq

/-- Result of one e-mail dispatch attempt: `sendReminderEmail` resolved true,
resolved false, or threw. -/
inductive EmailOutcome
  | success
  | failure
  | thrown
  deriving DecidableEq

/-- Result of one Supabase mirror call: succeeded, returned a falsy result,
or threw (both non-ok cases are swallowed by the callers). -/
inductive MirrorOutcome
  | ok
  | fail
  | throws
  deriving DecidableEq

/-! ## Overlap validator (models.ts StudyBlockSchema.statics.hasOverlap) -/

/-- The four-clause disjunction of `hasOverlap` evaluated against one existing
block `[bStart, bEnd)` and the candidate interval `[s, e)`, clause for clause:

1. existing.startTime <= s and existing.endTime > s (new start inside existing);
2. existing.startTime < e and existing.endTime >= e (new end inside existing);
3. existing.startTime >= s and existing.endTime <= e (new contains existing);
4. existing.startTime <= s and existing.endTime >= e (existing contains new). -/
def overlapClauses (bStart bEnd s e : Int) : Bool :=
  (bStart ≤ s && s < bEnd) ||
  (bStart < e && e ≤ bEnd) ||
  (s ≤ bStart && bEnd ≤ e) ||
  (bStart ≤ s && e ≤ bEnd)

/-- `StudyBlock.hasOverlap supabaseUserId startTime endTime excludeId`: does
any active block of the user, other than `excludeId`, satisfy the four-clause
disjunction against `[s, e)`. -/
def hasOverlap (blocks : List StudyBlock) (uid : Nat) (s e : Int)
    (excludeId : Option Nat) : Bool :=
  blocks.any (fun b =>
    b.supabaseUserId == uid && b.isActive &&
    (match excludeId with
     | some i => !(b.id == i)
     | none => true) &&
    overlapClauses b.startTime b.endTime s e)

/-! ## Job lock manager (cron.ts acquireLock / releaseLock / cleanupExpiredLocks) -/

/-- Does a lock document carry the given composite key. -/
def lockKeyMatches (l : JobLock) (jt : String) (bid uid : Nat) : Bool :=
  l.jobType == jt && l.blockId == bid && l.userId == uid

/-- `acquireLock jobType blockId userId` performs `JobLock.create`; the unique
compound index on (jobType, blockId, userId) makes the insert an atomic
insert-if-absent: a duplicate-key error (code 11000) is reported as `false`.
The acquisition never looks at `expiresAt`. -/
def acquireLock (locks : List JobLock) (jt : String) (bid uid : Nat)
    (now : Int) (lockDurationMinutes : Int := 15) : Bool × List JobLock :=
  if locks.any (fun l => lockKeyMatches l jt bid uid) then
    (false, locks)
  else
    (true,
      { jobType := jt, blockId := bid, userId := uid, lockedAt := now,
        expiresAt := now + lockDurationMinutes * minuteMs } :: locks)

/-- `releaseLock` performs `JobLock.deleteOne` on the composite key. -/
def releaseLock (locks : List JobLock) (jt : String) (bid uid : Nat) :
    List JobLock :=
  locks.eraseP (fun l => lockKeyMatches l jt bid uid)

/-- `cleanupExpiredLocks` performs `JobLock.deleteMany` with
expiresAt < now. -/
def cleanupExpiredLocks (locks : List JobLock) (now : Int) : List JobLock :=
  locks.filter (fun l => !(decide (l.expiresAt < now)))

/-! ## Reminder window scanner (cron.ts processReminders / sendReminders) -/

/-- The scan query of `processReminders`: startTime gte now+9m and
lt now+12m, reminderSent false, isActive true. -/
def upcomingBlocks (blocks : List StudyBlock) (now : Int) : List StudyBlock :=
  blocks.filter (fun b =>
    decide (now + 9 * minuteMs ≤ b.startTime) &&
    decide (b.startTime < now + 12 * minuteMs) &&
    b.reminderSent == false &&
    b.isActive == true)

/-- The per-candidate record assembled by `processReminders` before the
dispatch loop. -/
structure PendingReminder where
  blockId : Nat
  userId : Nat
  userEmail : String
  userName : String
  blockTitle : String
  startTime : Int
  endTime : Int
  deriving DecidableEq

/-- User-lookup phase of `processReminders`: a candidate whose owner is
missing, or has a falsy e-mail, is skipped. -/
def buildReminders (users : List UserRec) (bs : List StudyBlock) :
    List PendingReminder :=
  bs.filterMap (fun b =>
    match users.find? (fun u => u.supabaseId == b.supabaseUserId) with
    | none => none
    | some u =>
      if u.email == "" then none
      else some ⟨b.id, b.supabaseUserId, u.email, u.name, b.title,
                 b.startTime, b.endTime⟩)

/-- `StudyBlock.findByIdAndUpdate blockId (reminderSent := true)`. -/
def markReminderSent (bs : List StudyBlock) (bid : Nat) : List StudyBlock :=
  bs.map (fun b => if b.id == bid then { b with reminderSent := true } else b)

/-- `SupabaseStudyBlockService.markReminderSent` on the mirror store. -/
def markMirrorReminderSent (ms : List MirrorRec) (bid : Nat) :
    List MirrorRec :=
  ms.map (fun m => if m.mongoId == bid then { m with reminderSent := true } else m)

/-- One iteration of the `sendReminders` loop for one candidate: acquire the
lock (skip on contention); dispatch; on success mark the primary record sent,
attempt the mirror (its outcome swallowed), and leave the lock in place; on a
failed or throwing dispatch release the lock.  Returns the new state and
whether a reminder e-mail was successfully sent. -/
def handleReminder (db : DB) (now : Int) (r : PendingReminder)
    (eo : EmailOutcome) (mo : MirrorOutcome) : DB × Bool :=
  let acq := acquireLock db.locks "email_reminder" r.blockId r.userId now 15
  if acq.1 = false then
    (db, false)
  else
    match eo with
    | .success =>
      let blocks1 := markReminderSent db.blocks r.blockId
      let mirror1 :=
        match mo with
        | .ok => markMirrorReminderSent db.mirror r.blockId
        | _ => db.mirror
      ({ db with blocks := blocks1, locks := acq.2, mirror := mirror1 }, true)
    | .failure =>
      ({ db with locks := releaseLock acq.2 "email_reminder" r.blockId r.userId },
       false)
    | .thrown =>
      ({ db with locks := releaseLock acq.2 "email_reminder" r.blockId r.userId },
       false)

/-- The `sendReminders` loop over the candidate list, threading the state and
the accumulator of block ids for which an e-mail was successfully sent. -/
def sendRemindersGo (now : Int) (eo : Nat → EmailOutcome)
    (mo : Nat → MirrorOutcome) : DB → List PendingReminder → List Nat →
    DB × List Nat
  | db, [], sent => (db, sent)
  | db, r :: rest, sent =>
    let res := handleReminder db now r (eo r.blockId) (mo r.blockId)
    sendRemindersGo now eo mo res.1 rest
      (if res.2 then sent ++ [r.blockId] else sent)

/-- The `sendReminders` loop over the candidate list.  The second component
collects the block ids for which an e-mail was successfully sent. -/
def sendReminders (db : DB) (now : Int) (rs : List PendingReminder)
    (eo : Nat → EmailOutcome) (mo : Nat → MirrorOutcome) : DB × List Nat :=
  sendRemindersGo now eo mo db rs []

/-- One full scanner tick (`processReminders`): scan the window, resolve the
owners, run the dispatch loop. -/
def processReminders (db : DB) (now : Int) (eo : Nat → EmailOutcome)
    (mo : Nat → MirrorOutcome) : DB × List Nat :=
  sendReminders db now (buildReminders db.users (upcomingBlocks db.blocks now)) eo mo

/-! ## HTTP mutation routes (app/api/blocks POST, app/api/blocks/[id] PUT and
DELETE).  Authentication, JSON parsing and date parsing are upstream of the
embedded logic; `now` stands for the single tick of the clock the handler
reads. -/

/-- Response of a route handler: HTTP status, error message if any, and the
id of the block acted on if any. -/
structure Resp where
  status : Nat
  error : Option String
  blockId : Option Nat
  deriving DecidableEq

/-- The minimum-lead-time rejection message of the POST handler. -/
def createLeadTimeMsg : String :=
  "Start time must be at least 15 minutes from now to ensure email reminder delivery"

/-- The minimum-lead-time rejection message of the PUT handler. -/
def updateLeadTimeMsg : String :=
  "Start time must be at least 15 minutes from now to ensure email reminder delivery"

/-- POST /api/blocks: validations in source order (required fields, end after
start, start in the future, start at least 15 minutes out), user lookup,
overlap check, Mongo create, then the best-effort Supabase mirror create whose
failure is logged and swallowed. -/
def postCreate (db : DB) (now : Int) (uid : Nat) (title : String)
    (s e : Int) (m : MirrorOutcome) : Resp × DB :=
  if title == "" then
    (⟨400, some "Title, startTime, and endTime are required", none⟩, db)
  else if e ≤ s then
    (⟨400, some "End time must be after start time", none⟩, db)
  else if s ≤ now then
    (⟨400, some "Start time must be in the future", none⟩, db)
  else if s < now + 15 * minuteMs then
    (⟨400, some createLeadTimeMsg, none⟩, db)
  else
    match db.users.find? (fun u => u.supabaseId == uid) with
    | none => (⟨404, some "User not found", none⟩, db)
    | some _ =>
      if hasOverlap db.blocks uid s e none then
        (⟨409, some "This time slot overlaps with an existing study block", none⟩, db)
      else
        let blk : StudyBlock :=
          { id := db.nextId, supabaseUserId := uid, title := title.trim,
            startTime := s, endTime := e, reminderSent := false, isActive := true }
        let mirror1 :=
          match m with
          | .ok => (⟨blk.id, uid, title.trim, s, e, false⟩ : MirrorRec) :: db.mirror
          | _ => db.mirror
        (⟨201, none, some blk.id⟩,
         { db with nextId := db.nextId + 1, blocks := blk :: db.blocks,
                   mirror := mirror1 })

/-- PUT /api/blocks/[id]: validations in source order (required fields, end
after start, start in the future, start at least 13 minutes out — the comment
and the error message both say 15), ownership lookup, overlap check excluding
the block itself, `findByIdAndUpdate` writing the new title and times and
resetting `reminderSent` to false, then the best-effort Supabase mirror
update. -/
def putUpdate (db : DB) (now : Int) (id uid : Nat) (title : String)
    (s e : Int) (m : MirrorOutcome) : Resp × DB :=
  if title == "" then
    (⟨400, some "Title, startTime, and endTime are required", none⟩, db)
  else if e ≤ s then
    (⟨400, some "End time must be after start time", none⟩, db)
  else if s ≤ now then
    (⟨400, some "Start time must be in the future", none⟩, db)
  else if s < now + 13 * minuteMs then
    (⟨400, some updateLeadTimeMsg, none⟩, db)
  else
    match db.blocks.find? (fun b => b.id == id && b.supabaseUserId == uid) with
    | none => (⟨404, some "Study block not found", none⟩, db)
    | some _ =>
      if hasOverlap db.blocks uid s e (some id) then
        (⟨409, some "This time slot overlaps with an existing study block", none⟩, db)
      else
        let blocks1 := db.blocks.map (fun b =>
          if b.id == id then
            { b with title := title.trim, startTime := s, endTime := e,
                     reminderSent := false }
          else b)
        let mirror1 :=
          match m with
          | .ok => db.mirror.map (fun r =>
              if r.mongoId == id then
                { r with title := title.trim, startTime := s, endTime := e,
                         reminderSent := false }
              else r)
          | _ => db.mirror
        (⟨200, none, some id⟩, { db with blocks := blocks1, mirror := mirror1 })

/-- DELETE /api/blocks/[id]: `findOneAndDelete` on (id, owner), then the
best-effort Supabase mirror delete. -/
def deleteBlock (db : DB) (id uid : Nat) (m : MirrorOutcome) : Resp × DB :=
  match db.blocks.find? (fun b => b.id == id && b.supabaseUserId == uid) with
  | none => (⟨404, some "Study block not found", none⟩, db)
  | some _ =>
    let blocks1 := db.blocks.eraseP (fun b => b.id == id && b.supabaseUserId == uid)
    let mirror1 :=
      match m with
      | .ok => db.mirror.filter (fun r => !(r.mongoId == id))
      | _ => db.mirror
    (⟨200, none, some id⟩, { db with blocks := blocks1, mirror := mirror1 })

/-- GET /api/blocks: the blocks of the user with isActive true (the sort by
startTime does not affect membership). -/
def getBlocks (db : DB) (uid : Nat) : List StudyBlock :=
  db.blocks.filter (fun b => b.supabaseUserId == uid && b.isActive)

/-! ## The operations that touch the stores -/

/-- Every operation of the engine that mutates the stores: the three block
routes, one scanner tick, and the expired-lock cleanup. -/
inductive Op
  | create (now : Int) (uid : Nat) (title : String) (s e : Int) (m : MirrorOutcome)
  | update (now : Int) (id uid : Nat) (title : String) (s e : Int) (m : MirrorOutcome)
  | remove (id uid : Nat) (m : MirrorOutcome)
  | tick (now : Int) (eo : Nat → EmailOutcome) (mo : Nat → MirrorOutcome)
  | cleanup (now : Int)

/-- Is the operation the PUT route, the only one that edits a block's
start/end times. -/
def Op.isTimeEdit : Op → Bool
  | .update _ _ _ _ _ _ _ => true
  | _ => false

/-- State transition of one operation. -/
def step (db : DB) : Op → DB
  | .create now uid title s e m => (postCreate db now uid title s e m).2
  | .update now id uid title s e m => (putUpdate db now id uid title s e m).2
  | .remove id uid m => (deleteBlock db id uid m).2
  | .tick now eo mo => (processReminders db now eo mo).1
  | .cleanup now => { db with locks := cleanupExpiredLocks db.locks now }

/-- Every block id is below the id counter (holds for every database reachable
from an empty one, since `postCreate` allocates `nextId` and bumps it). -/
def goodIds (db : DB) : Prop :=
  ∀ b ∈ db.blocks, b.id < db.nextId

/-- The block ids are pairwise distinct (Mongo `_id` uniqueness). -/
def idsNodup (db : DB) : Prop :=
  (db.blocks.map (fun b => b.id)).Nodup

/-- At most one lock per composite key (the unique compound index of
JobLockSchema). -/
def uniqueLockKeys (locks : List JobLock) : Prop :=
  locks.Pairwise (fun a b =>
    ¬(a.jobType = b.jobType ∧ a.blockId = b.blockId ∧ a.userId = b.userId))

/-- A list of blocks evolves monotonically with respect to `reminderSent`:
every block after the step is either an old block unchanged or an old block
with `reminderSent` switched on. -/
def MonoBlocks (bs bs2 : List StudyBlock) : Prop :=
  ∀ b2 ∈ bs2, b2 ∈ bs ∨ ∃ b ∈ bs, b2 = { b with reminderSent := true }

/-- One scanner tick as seen from outside: its wall-clock time and the
dispatch and mirror outcomes the environment produces during it. -/
structure Tick where
  now : Int
  eo : Nat → EmailOutcome
  mo : Nat → MirrorOutcome

/-- Run a sequence of scanner ticks. -/
def runTicks : DB → List Tick → DB
  | db, [] => db
  | db, t :: ts => runTicks (processReminders db t.now t.eo t.mo).1 ts

/-! ## Concrete test fixtures -/

/-- A registered user. -/
def user1 : UserRec := ⟨1, "user@example.com", "User One"⟩

/-- A block starting ten minutes after the epoch. -/
def blockTen : StudyBlock :=
  ⟨1, 1, "deep work", 10 * minuteMs, 40 * minuteMs, false, true⟩

/-- A block far in the past whose reminder was never sent. -/
def blockMissed : StudyBlock :=
  ⟨2, 1, "missed", 0, 30 * minuteMs, false, true⟩

/-- A block whose reminder has already been sent. -/
def blockSentAlready : StudyBlock :=
  ⟨5, 1, "done", 100 * minuteMs, 120 * minuteMs, true, true⟩

/-- A database holding `blockSentAlready` and its owner. -/
def dbSent : DB := ⟨6, [blockSentAlready], [user1], [], []⟩

/-- A database holding `blockMissed` and its owner. -/
def dbMissed : DB := ⟨3, [blockMissed], [user1], [], []⟩

/-- A database holding only the owner, no blocks and no locks. -/
def dbEmpty : DB := ⟨1, [], [user1], [], []⟩

/-- An already-expired lock for block 1 of user 1. -/
def staleLock : JobLock := ⟨"email_reminder", 1, 1, 0, 15 * minuteMs⟩

/-- A pending reminder for `blockTen`. -/
def reminderTen : PendingReminder :=
  ⟨1, 1, "user@example.com", "User One", "deep work", 10 * minuteMs,
   40 * minuteMs⟩

/-- A database holding `blockTen` and its owner. -/
def dbTen : DB := ⟨2, [blockTen], [user1], [], []⟩

/-! ## Helper lemmas -/

theorem overlapClauses_iff (bStart bEnd s e : Int) (hb : bStart < bEnd)
    (hn : s < e) :
    overlapClauses bStart bEnd s e = true ↔ (bStart < e ∧ s < bEnd) := by
  simp only [overlapClauses, Bool.or_eq_true, Bool.and_eq_true,
    decide_eq_true_eq]
  omega

theorem mem_upcomingBlocks (blocks : List StudyBlock) (now : Int)
    (b : StudyBlock) :
    b ∈ upcomingBlocks blocks now ↔
      (b ∈ blocks ∧ b.isActive = true ∧ b.reminderSent = false ∧
       now + 9 * minuteMs ≤ b.startTime ∧ b.startTime < now + 12 * minuteMs) := by
  simp only [upcomingBlocks, List.mem_filter, Bool.and_eq_true,
    decide_eq_true_eq, beq_iff_eq]
  tauto

/-! ## C3: the four-clause overlap disjunction equals the closed form and is
symmetric -/

/-- C3: for valid half-open intervals, `hasOverlap`'s four-clause disjunction
(start-inside, end-inside, new-contains-existing, existing-contains-new),
evaluated against an existing block `[s1, e1)` and a candidate `[s2, e2)`,
holds iff `s1 < e2 ∧ s2 < e1`; in particular the predicate is symmetric in the
two intervals. -/
theorem overlap_clauses_iff_closed_form_and_symmetric (s1 e1 s2 e2 : Int)
    (h1 : s1 < e1) (h2 : s2 < e2) :
    (overlapClauses s1 e1 s2 e2 = true ↔ (s1 < e2 ∧ s2 < e1)) ∧
    overlapClauses s1 e1 s2 e2 = overlapClauses s2 e2 s1 e1 := by
  refine ⟨overlapClauses_iff s1 e1 s2 e2 h1 h2, ?_⟩
  cases ha : overlapClauses s1 e1 s2 e2 with
  | false =>
    cases hb : overlapClauses s2 e2 s1 e1 with
    | false => rfl
    | true =>
      exfalso
      have hab := (overlapClauses_iff s2 e2 s1 e1 h2 h1).mp hb
      have hna := overlapClauses_iff s1 e1 s2 e2 h1 h2
      rw [ha] at hna
      simp only [Bool.false_eq_true, false_iff, not_and] at hna
      exact hna hab.2 hab.1
  | true =>
    have hab := (overlapClauses_iff s1 e1 s2 e2 h1 h2).mp ha
    exact ((overlapClauses_iff s2 e2 s1 e1 h2 h1).mpr ⟨hab.2, hab.1⟩).symm

/-- Witness for C3 at the concrete intervals `[0, 2)` and `[1, 3)`. -/
theorem overlap_clauses_iff_closed_form_and_symmetric_witness :
    (0 : Int) < 2 ∧ (1 : Int) < 3 ∧
    ((overlapClauses 0 2 1 3 = true ↔ ((0 : Int) < 3 ∧ (1 : Int) < 2)) ∧
     overlapClauses 0 2 1 3 = overlapClauses 1 3 0 2) :=
  ⟨by decide, by decide,
   overlap_clauses_iff_closed_form_and_symmetric 0 2 1 3 (by decide) (by decide)⟩

/-! ## C5: touching intervals do not overlap -/

/-- C5: when one valid interval ends exactly where the other starts, the
four-clause check reports no overlap, and `hasOverlap` against a store holding
the touching block reports no conflict, so creating the touching block is not
rejected. -/
theorem touching_blocks_do_not_overlap (b : StudyBlock) (s e : Int)
    (hb : b.startTime < b.endTime) (hn : s < e)
    (ht : b.endTime = s ∨ e = b.startTime) :
    overlapClauses b.startTime b.endTime s e = false ∧
    hasOverlap [b] b.supabaseUserId s e none = false := by
  have hc : overlapClauses b.startTime b.endTime s e = false := by
    cases h : overlapClauses b.startTime b.endTime s e with
    | false => rfl
    | true =>
      exfalso
      have := (overlapClauses_iff b.startTime b.endTime s e hb hn).mp h
      omega
  refine ⟨hc, ?_⟩
  simp [hasOverlap, hc]

/-- Witness for C5: the block `[10 min, 40 min)` does not conflict with the
touching candidate `[40 min, 70 min)`. -/
theorem touching_blocks_do_not_overlap_witness :
    blockTen.startTime < blockTen.endTime ∧
    (40 * minuteMs : Int) < 70 * minuteMs ∧
    (blockTen.endTime = 40 * minuteMs ∨ (70 * minuteMs : Int) = blockTen.startTime) ∧
    (overlapClauses blockTen.startTime blockTen.endTime (40 * minuteMs) (70 * minuteMs) = false ∧
     hasOverlap [blockTen] blockTen.supabaseUserId (40 * minuteMs) (70 * minuteMs) none = false) :=
  ⟨by decide, by decide, by decide,
   touching_blocks_do_not_overlap blockTen (40 * minuteMs) (70 * minuteMs)
     (by decide) (by decide) (by decide)⟩

theorem uniqueLockKeys_acquire (locks : List JobLock) (jt : String)
    (bid uid : Nat) (now d : Int) (h : uniqueLockKeys locks) :
    uniqueLockKeys (acquireLock locks jt bid uid now d).2 := by
  unfold acquireLock
  split
  · exact h
  · rename_i hany
    refine List.Pairwise.cons (fun l hl hk => ?_) h
    apply hany
    rw [List.any_eq_true]
    refine ⟨l, hl, ?_⟩
    simp only [lockKeyMatches, Bool.and_eq_true, beq_iff_eq]
    exact ⟨⟨hk.1.symm, hk.2.1.symm⟩, hk.2.2.symm⟩

theorem uniqueLockKeys_release (locks : List JobLock) (jt : String)
    (bid uid : Nat) (h : uniqueLockKeys locks) :
    uniqueLockKeys (releaseLock locks jt bid uid) :=
  List.Pairwise.sublist (List.eraseP_sublist locks) h

theorem uniqueLockKeys_cleanup (locks : List JobLock) (now : Int)
    (h : uniqueLockKeys locks) :
    uniqueLockKeys (cleanupExpiredLocks locks now) :=
  List.Pairwise.sublist (List.filter_sublist locks) h

theorem uniqueLockKeys_handleReminder (db : DB) (now : Int)
    (r : PendingReminder) (eo : EmailOutcome) (mo : MirrorOutcome)
    (h : uniqueLockKeys db.locks) :
    uniqueLockKeys (handleReminder db now r eo mo).1.locks := by
  have ha := uniqueLockKeys_acquire db.locks "email_reminder" r.blockId r.userId now 15 h
  cases eo with
  | success =>
    simp only [handleReminder]
    split
    · exact h
    · exact ha
  | failure =>
    simp only [handleReminder]
    split
    · exact h
    · exact uniqueLockKeys_release _ _ _ _ ha
  | thrown =>
    simp only [handleReminder]
    split
    · exact h
    · exact uniqueLockKeys_release _ _ _ _ ha

theorem uniqueLockKeys_go (now : Int) (eo : Nat → EmailOutcome)
    (mo : Nat → MirrorOutcome) (rs : List PendingReminder) :
    ∀ (db : DB) (sent : List Nat), uniqueLockKeys db.locks →
      uniqueLockKeys (sendRemindersGo now eo mo db rs sent).1.locks := by
  induction rs with
  | nil => intro db sent h; exact h
  | cons r rest ih =>
    intro db sent h
    exact ih _ _ (uniqueLockKeys_handleReminder db now r (eo r.blockId) (mo r.blockId) h)

theorem postCreate_locks (db : DB) (now : Int) (uid : Nat) (title : String)
    (s e : Int) (m : MirrorOutcome) :
    (postCreate db now uid title s e m).2.locks = db.locks := by
  unfold postCreate
  repeat' split
  all_goals rfl

theorem putUpdate_locks (db : DB) (now : Int) (id uid : Nat) (title : String)
    (s e : Int) (m : MirrorOutcome) :
    (putUpdate db now id uid title s e m).2.locks = db.locks := by
  unfold putUpdate
  repeat' split
  all_goals rfl

theorem deleteBlock_locks (db : DB) (id uid : Nat) (m : MirrorOutcome) :
    (deleteBlock db id uid m).2.locks = db.locks := by
  unfold deleteBlock
  repeat' split
  all_goals rfl

theorem uniqueLockKeys_step (db : DB) (op : Op) (h : uniqueLockKeys db.locks) :
    uniqueLockKeys (step db op).locks := by
  cases op with
  | create now uid title s e m => rw [step, postCreate_locks]; exact h
  | update now id uid title s e m => rw [step, putUpdate_locks]; exact h
  | remove id uid m => rw [step, deleteBlock_locks]; exact h
  | tick now eo mo => exact uniqueLockKeys_go now eo mo _ db [] h
  | cleanup now => exact uniqueLockKeys_cleanup db.locks now h

theorem acquireLock_of_free (locks : List JobLock) (jt : String)
    (bid uid : Nat) (now d : Int)
    (hfree : ∀ l ∈ locks, lockKeyMatches l jt bid uid = false) :
    acquireLock locks jt bid uid now d =
      (true, ⟨jt, bid, uid, now, now + d * minuteMs⟩ :: locks) := by
  have hany : locks.any (fun l => lockKeyMatches l jt bid uid) = false := by
    rw [List.any_eq_false]
    exact fun l hl => by rw [hfree l hl]; simp
  unfold acquireLock
  rw [hany]
  simp

theorem releaseLock_cons_matching (a : JobLock) (locks : List JobLock)
    (jt : String) (bid uid : Nat) (h : lockKeyMatches a jt bid uid = true) :
    releaseLock (a :: locks) jt bid uid = locks := by
  simp [releaseLock, List.eraseP_cons_of_pos, h]

/-! ## C2: lock acquisition is an atomic insert-if-absent against the unique
composite key -/

/-- C2: the uniqueness invariant (at most one lock per
(jobType, blockId, userId) key) is preserved by every operation of the engine
and by `acquireLock` itself, and of two back-to-back acquire attempts for a
free key the first returns acquired and the second observes alreadyHeld. -/
theorem lock_acquire_atomic_and_unique (db : DB) (op : Op)
    (locks : List JobLock) (jt : String) (bid uid : Nat) (now d : Int) :
    (uniqueLockKeys db.locks → uniqueLockKeys (step db op).locks) ∧
    (uniqueLockKeys locks → uniqueLockKeys (acquireLock locks jt bid uid now d).2) ∧
    ((∀ l ∈ locks, lockKeyMatches l jt bid uid = false) →
      (acquireLock locks jt bid uid now d).1 = true ∧
      (acquireLock (acquireLock locks jt bid uid now d).2 jt bid uid now d).1 = false) := by
  refine ⟨uniqueLockKeys_step db op,
          uniqueLockKeys_acquire locks jt bid uid now d, fun hfree => ?_⟩
  have hany : locks.any (fun l => lockKeyMatches l jt bid uid) = false := by
    rw [List.any_eq_false]
    exact fun l hl => by rw [hfree l hl]; simp
  have h1 : acquireLock locks jt bid uid now d =
      (true, ⟨jt, bid, uid, now, now + d * minuteMs⟩ :: locks) := by
    unfold acquireLock
    rw [hany]
    simp
  refine ⟨by rw [h1], ?_⟩
  rw [h1]
  unfold acquireLock
  have : lockKeyMatches ⟨jt, bid, uid, now, now + d * minuteMs⟩ jt bid uid = true := by
    simp [lockKeyMatches]
  simp [this]

/-- Witness for C2 on the empty lock table. -/
theorem lock_acquire_atomic_and_unique_witness :
    uniqueLockKeys ((step dbEmpty (Op.cleanup 0)).locks) ∧
    uniqueLockKeys (acquireLock [] "email_reminder" 1 1 0 15).2 ∧
    ((acquireLock ([] : List JobLock) "email_reminder" 1 1 0 15).1 = true ∧
     (acquireLock (acquireLock [] "email_reminder" 1 1 0 15).2 "email_reminder" 1 1 0 15).1 = false) := by
  obtain ⟨h1, h2, h3⟩ :=
    lock_acquire_atomic_and_unique dbEmpty (Op.cleanup 0) [] "email_reminder" 1 1 0 15
  exact ⟨h1 List.Pairwise.nil, h2 List.Pairwise.nil, h3 (by intro l hl; cases hl)⟩

/-! ## C10: acquisition never inspects expiry; a stale lock blocks until it is
reaped -/

/-- C10: `acquireLock` returns alreadyHeld whenever any record with the same
composite key exists, expired or not; once `cleanupExpiredLocks` has removed
the (all expired) matching records, acquisition succeeds again. -/
theorem acquire_blocked_by_stale_lock_until_cleanup (locks : List JobLock)
    (jt : String) (bid uid : Nat) (now d : Int)
    (hexists : ∃ l ∈ locks, lockKeyMatches l jt bid uid = true) :
    (acquireLock locks jt bid uid now d).1 = false ∧
    ((∀ l ∈ locks, lockKeyMatches l jt bid uid = true → l.expiresAt < now) →
      (acquireLock (cleanupExpiredLocks locks now) jt bid uid now d).1 = true) := by
  constructor
  · have hany : locks.any (fun l => lockKeyMatches l jt bid uid) = true := by
      rw [List.any_eq_true]; exact hexists
    unfold acquireLock
    rw [hany]
    simp
  · intro hexp
    have hany : (cleanupExpiredLocks locks now).any
        (fun l => lockKeyMatches l jt bid uid) = false := by
      rw [List.any_eq_false]
      intro l hl
      rw [cleanupExpiredLocks, List.mem_filter] at hl
      cases hk : lockKeyMatches l jt bid uid with
      | false => simp
      | true =>
        exfalso
        have := hexp l hl.1 hk
        have h2 := hl.2
        simp only [Bool.not_eq_true', decide_eq_false_iff_not] at h2
        exact h2 this
    unfold acquireLock
    rw [hany]
    simp

/-- Witness for C10: the expired `staleLock` (expiry 15 min) still blocks
acquisition at time 100 min, and after cleanup acquisition succeeds. -/
theorem acquire_blocked_by_stale_lock_until_cleanup_witness :
    (∃ l ∈ [staleLock], lockKeyMatches l "email_reminder" 1 1 = true) ∧
    ((acquireLock [staleLock] "email_reminder" 1 1 (100 * minuteMs) 15).1 = false ∧
     ((∀ l ∈ [staleLock], lockKeyMatches l "email_reminder" 1 1 = true →
        l.expiresAt < 100 * minuteMs) →
      (acquireLock (cleanupExpiredLocks [staleLock] (100 * minuteMs))
        "email_reminder" 1 1 (100 * minuteMs) 15).1 = true)) :=
  ⟨by decide,
   acquire_blocked_by_stale_lock_until_cleanup [staleLock] "email_reminder" 1 1
     (100 * minuteMs) 15 (by decide)⟩

/-! ## C4: after the lock is acquired, a successful dispatch persists the
flag and leaves the lock to its TTL; a failed or throwing dispatch releases
the lock and leaves the flag alone -/

/-- C4: with no lock held for the candidate's key, the dispatch step on
success writes `reminderSent = true` on the primary store and keeps the lock
(expiring at now + 15 min) in the table; on a failed or throwing dispatch it
removes the lock and leaves the blocks untouched, so a candidate's
`reminderSent` stays false for the next tick to retry. -/
theorem dispatch_success_keeps_lock_failure_releases (db : DB) (now : Int)
    (r : PendingReminder) (mo : MirrorOutcome)
    (hfree : ∀ l ∈ db.locks,
      lockKeyMatches l "email_reminder" r.blockId r.userId = false) :
    ((handleReminder db now r .success mo).1.blocks =
        markReminderSent db.blocks r.blockId ∧
     (∀ b ∈ db.blocks, b.id = r.blockId →
        { b with reminderSent := true } ∈
          (handleReminder db now r .success mo).1.blocks) ∧
     (∃ l ∈ (handleReminder db now r .success mo).1.locks,
        lockKeyMatches l "email_reminder" r.blockId r.userId = true ∧
        l.expiresAt = now + 15 * minuteMs) ∧
     (handleReminder db now r .success mo).2 = true) ∧
    (∀ eo : EmailOutcome, eo = .failure ∨ eo = .thrown →
      ((handleReminder db now r eo mo).1.blocks = db.blocks ∧
       (∀ l ∈ (handleReminder db now r eo mo).1.locks,
          lockKeyMatches l "email_reminder" r.blockId r.userId = false) ∧
       (handleReminder db now r eo mo).2 = false)) := by
  have hacq := acquireLock_of_free db.locks "email_reminder" r.blockId r.userId
    now 15 hfree
  have hnew : lockKeyMatches
      (⟨"email_reminder", r.blockId, r.userId, now, now + 15 * minuteMs⟩ : JobLock)
      "email_reminder" r.blockId r.userId = true := by
    simp [lockKeyMatches]
  refine ⟨⟨?_, ?_, ?_, ?_⟩, ?_⟩
  · simp only [handleReminder, hacq]
    simp
  · intro b hb hid
    simp only [handleReminder, hacq]
    simp only [Bool.true_eq_false, if_false]
    exact List.mem_map.mpr ⟨b, hb, by simp [hid]⟩
  · simp only [handleReminder, hacq]
    simp only [Bool.true_eq_false, if_false]
    exact ⟨_, List.mem_cons_self _ _, hnew, rfl⟩
  · simp only [handleReminder, hacq]
    simp
  · intro eo heo
    have hrel : releaseLock
        ((⟨"email_reminder", r.blockId, r.userId, now, now + 15 * minuteMs⟩ : JobLock)
          :: db.locks) "email_reminder" r.blockId r.userId = db.locks :=
      releaseLock_cons_matching _ _ _ _ _ hnew
    rcases heo with heo | heo <;> subst heo <;>
      simp only [handleReminder, hacq] <;>
      simp only [Bool.true_eq_false, if_false] <;>
      exact ⟨trivial, by rw [hrel]; exact hfree, trivial⟩

/-- Witness for C4 on `dbTen` (no lock held) with reminder `reminderTen`. -/
theorem dispatch_success_keeps_lock_failure_releases_witness :
    (∀ l ∈ dbTen.locks, lockKeyMatches l "email_reminder" 1 1 = false) ∧
    (((handleReminder dbTen 0 reminderTen .success .fail).1.blocks =
        markReminderSent dbTen.blocks reminderTen.blockId ∧
      (∀ b ∈ dbTen.blocks, b.id = reminderTen.blockId →
         { b with reminderSent := true } ∈
           (handleReminder dbTen 0 reminderTen .success .fail).1.blocks) ∧
      (∃ l ∈ (handleReminder dbTen 0 reminderTen .success .fail).1.locks,
         lockKeyMatches l "email_reminder" reminderTen.blockId reminderTen.userId = true ∧
         l.expiresAt = 0 + 15 * minuteMs) ∧
      (handleReminder dbTen 0 reminderTen .success .fail).2 = true) ∧
     (∀ eo : EmailOutcome, eo = .failure ∨ eo = .thrown →
       ((handleReminder dbTen 0 reminderTen eo .fail).1.blocks = dbTen.blocks ∧
        (∀ l ∈ (handleReminder dbTen 0 reminderTen eo .fail).1.locks,
           lockKeyMatches l "email_reminder" reminderTen.blockId reminderTen.userId = false) ∧
        (handleReminder dbTen 0 reminderTen eo .fail).2 = false))) :=
  ⟨by decide,
   dispatch_success_keeps_lock_failure_releases dbTen 0 reminderTen .fail
     (by decide)⟩

/-! ## C6: the scan window is exactly the half-open interval
`[now + 9 min, now + 12 min)` over active, not-yet-reminded blocks -/

/-- C6: a block is a scan candidate at tick time `now` iff it is stored,
active, has `reminderSent = false`, and its start time lies in
`[now + 9 min, now + 12 min)`; concretely, `blockTen` (start = 10 min) is a
candidate at tick 0, and at tick 3 min (when it is 7 minutes out) it is not. -/
theorem scan_window_is_nine_to_twelve_minutes :
    (∀ (blocks : List StudyBlock) (now : Int) (b : StudyBlock),
      b ∈ upcomingBlocks blocks now ↔
        (b ∈ blocks ∧ b.isActive = true ∧ b.reminderSent = false ∧
         now + 9 * minuteMs ≤ b.startTime ∧ b.startTime < now + 12 * minuteMs)) ∧
    blockTen ∈ upcomingBlocks [blockTen] 0 ∧
    blockTen ∉ upcomingBlocks [blockTen] (3 * minuteMs) :=
  ⟨mem_upcomingBlocks, by decide, by decide⟩

/-! ## C7: the primary write commits before the mirror is attempted, and a
mirror failure never rolls it back -/

/-- C7: under passing validations, the create route returns 201 with the
block committed to the primary store and retrievable from it, and neither the
response nor the primary-store contents depend on the mirror outcome; the
reminder-sent update likewise writes the primary store identically whatever
the mirror call does. -/
theorem primary_commit_independent_of_mirror (db : DB) (now : Int) (uid : Nat)
    (title : String) (s e : Int) (m : MirrorOutcome)
    (htitle : ¬title = "") (hfuture : now < s) (hrange : s < e)
    (hlead : now + 15 * minuteMs ≤ s)
    (huser : (db.users.find? (fun u => u.supabaseId == uid)).isSome = true)
    (hov : hasOverlap db.blocks uid s e none = false) :
    ((postCreate db now uid title s e m).1.status = 201 ∧
     (postCreate db now uid title s e m).1 = (postCreate db now uid title s e .ok).1 ∧
     (postCreate db now uid title s e m).2.blocks =
       (postCreate db now uid title s e .ok).2.blocks ∧
     (∃ blk ∈ (postCreate db now uid title s e m).2.blocks,
        blk.id = db.nextId ∧ blk.supabaseUserId = uid ∧ blk.startTime = s ∧
        blk.endTime = e ∧
        blk ∈ getBlocks (postCreate db now uid title s e m).2 uid)) ∧
    (∀ (db2 : DB) (now2 : Int) (r : PendingReminder) (mo : MirrorOutcome),
      (handleReminder db2 now2 r .success mo).1.blocks =
        (handleReminder db2 now2 r .success .ok).1.blocks) := by
  obtain ⟨u, hu⟩ := Option.isSome_iff_exists.mp huser
  have c1 : ¬ ((title == "") = true) := by simp [htitle]
  have c2 : ¬ (e ≤ s) := by omega
  have c3 : ¬ (s ≤ now) := by omega
  have c4 : ¬ (s < now + 15 * minuteMs) := by omega
  have hpost : ∀ m2 : MirrorOutcome,
      (postCreate db now uid title s e m2).1 = ⟨201, none, some db.nextId⟩ ∧
      (postCreate db now uid title s e m2).2.blocks =
        ({ id := db.nextId, supabaseUserId := uid, title := title.trim,
           startTime := s, endTime := e, reminderSent := false,
           isActive := true } : StudyBlock) :: db.blocks := by
    intro m2
    constructor <;> simp [postCreate, hu, c1, c2, c3, c4, hov]
  refine ⟨⟨?_, ?_, ?_, ?_⟩, ?_⟩
  · rw [(hpost m).1]
  · rw [(hpost m).1, (hpost MirrorOutcome.ok).1]
  · rw [(hpost m).2, (hpost MirrorOutcome.ok).2]
  · refine ⟨_, by rw [(hpost m).2]; exact List.mem_cons_self _ _,
      rfl, rfl, rfl, rfl, ?_⟩
    simp only [getBlocks, (hpost m).2, List.filter_cons]
    simp
  · intro db2 now2 r mo
    simp only [handleReminder]
    split <;> rfl

/-- Witness for C7: creating a block 20 minutes out in `dbEmpty` with a
failing mirror. -/
theorem primary_commit_independent_of_mirror_witness :
    (¬"Focus" = "") ∧ ((0 : Int) < 20 * minuteMs) ∧
    ((20 * minuteMs : Int) < 50 * minuteMs) ∧
    ((0 : Int) + 15 * minuteMs ≤ 20 * minuteMs) ∧
    (dbEmpty.users.find? (fun u => u.supabaseId == 1)).isSome = true ∧
    hasOverlap dbEmpty.blocks 1 (20 * minuteMs) (50 * minuteMs) none = false ∧
    (((postCreate dbEmpty 0 1 "Focus" (20 * minuteMs) (50 * minuteMs) .fail).1.status = 201 ∧
      (postCreate dbEmpty 0 1 "Focus" (20 * minuteMs) (50 * minuteMs) .fail).1 =
        (postCreate dbEmpty 0 1 "Focus" (20 * minuteMs) (50 * minuteMs) .ok).1 ∧
      (postCreate dbEmpty 0 1 "Focus" (20 * minuteMs) (50 * minuteMs) .fail).2.blocks =
        (postCreate dbEmpty 0 1 "Focus" (20 * minuteMs) (50 * minuteMs) .ok).2.blocks ∧
      (∃ blk ∈ (postCreate dbEmpty 0 1 "Focus" (20 * minuteMs) (50 * minuteMs) .fail).2.blocks,
         blk.id = dbEmpty.nextId ∧ blk.supabaseUserId = 1 ∧
         blk.startTime = 20 * minuteMs ∧ blk.endTime = 50 * minuteMs ∧
         blk ∈ getBlocks (postCreate dbEmpty 0 1 "Focus" (20 * minuteMs) (50 * minuteMs) .fail).2 1)) ∧
     (∀ (db2 : DB) (now2 : Int) (r : PendingReminder) (mo : MirrorOutcome),
       (handleReminder db2 now2 r .success mo).1.blocks =
         (handleReminder db2 now2 r .success .ok).1.blocks)) :=
  ⟨by decide, by decide, by decide, by decide, by decide, by decide,
   primary_commit_independent_of_mirror dbEmpty 0 1 "Focus" (20 * minuteMs)
     (50 * minuteMs) .fail (by decide) (by decide) (by decide) (by decide)
     (by decide) (by decide)⟩

/-! ## C9: create enforces a 15-minute lead, update only 13, both with the
same 15-minute message -/

/-- C9: under the earlier validations passing, the create route rejects any
start time less than 15 minutes out while the update route rejects only below
13 minutes and proceeds past the lead check at 13 or more; both rejection
messages are the identical 15-minute text, and concretely a block starting 14
minutes out is rejected by create but accepted (200) by update. -/
theorem create_lead_15_update_lead_13 (db : DB) (now : Int)
    (id uid : Nat) (title : String) (s e : Int) (m : MirrorOutcome)
    (htitle : ¬title = "") (hfuture : now < s) (hrange : s < e) :
    ((s < now + 15 * minuteMs →
       postCreate db now uid title s e m = (⟨400, some createLeadTimeMsg, none⟩, db)) ∧
     (s < now + 13 * minuteMs →
       putUpdate db now id uid title s e m = (⟨400, some updateLeadTimeMsg, none⟩, db)) ∧
     (now + 13 * minuteMs ≤ s →
       (putUpdate db now id uid title s e m).1.error ≠ some updateLeadTimeMsg) ∧
     createLeadTimeMsg = updateLeadTimeMsg) ∧
    ((postCreate dbSent 0 1 "Focus" (14 * minuteMs) (44 * minuteMs) .ok).1 =
       ⟨400, some createLeadTimeMsg, none⟩ ∧
     (putUpdate dbSent 0 5 1 "Focus" (14 * minuteMs) (44 * minuteMs) .ok).1.status = 200) := by
  have c1 : ¬ ((title == "") = true) := by simp [htitle]
  have c2 : ¬ (e ≤ s) := by omega
  have c3 : ¬ (s ≤ now) := by omega
  refine ⟨⟨?_, ?_, ?_, rfl⟩, by decide, by decide⟩
  · intro hl
    simp [postCreate, c1, c2, c3, hl]
  · intro hl
    simp [putUpdate, c1, c2, c3, hl]
  · intro h13
    have c4 : ¬ (s < now + 13 * minuteMs) := by omega
    intro hc
    simp only [putUpdate] at hc
    rw [if_neg c1, if_neg c2, if_neg c3, if_neg c4] at hc
    split at hc
    · simp [updateLeadTimeMsg] at hc
    · split at hc
      · simp [updateLeadTimeMsg] at hc
      · simp at hc

/-- Witness for C9 at a start time 14 minutes out against `dbSent`. -/
theorem create_lead_15_update_lead_13_witness :
    (¬"Focus" = "") ∧ ((0 : Int) < 14 * minuteMs) ∧
    ((14 * minuteMs : Int) < 44 * minuteMs) ∧
    (((14 * minuteMs : Int) < 0 + 15 * minuteMs →
       postCreate dbSent 0 1 "Focus" (14 * minuteMs) (44 * minuteMs) .ok =
         (⟨400, some createLeadTimeMsg, none⟩, dbSent)) ∧
     ((14 * minuteMs : Int) < 0 + 13 * minuteMs →
       putUpdate dbSent 0 5 1 "Focus" (14 * minuteMs) (44 * minuteMs) .ok =
         (⟨400, some updateLeadTimeMsg, none⟩, dbSent)) ∧
     ((0 : Int) + 13 * minuteMs ≤ 14 * minuteMs →
       (putUpdate dbSent 0 5 1 "Focus" (14 * minuteMs) (44 * minuteMs) .ok).1.error ≠
         some updateLeadTimeMsg) ∧
     createLeadTimeMsg = updateLeadTimeMsg) ∧
    ((postCreate dbSent 0 1 "Focus" (14 * minuteMs) (44 * minuteMs) .ok).1 =
       ⟨400, some createLeadTimeMsg, none⟩ ∧
     (putUpdate dbSent 0 5 1 "Focus" (14 * minuteMs) (44 * minuteMs) .ok).1.status = 200) :=
  ⟨by decide, by decide, by decide,
   create_lead_15_update_lead_13 dbSent 0 5 1 "Focus" (14 * minuteMs)
     (44 * minuteMs) .ok (by decide) (by decide) (by decide)⟩

theorem markReminderSent_map_id (bs : List StudyBlock) (bid : Nat) :
    (markReminderSent bs bid).map (fun b => b.id) = bs.map (fun b => b.id) := by
  induction bs with
  | nil => rfl
  | cons x xs ih =>
    simp only [markReminderSent, List.map_cons] at ih ⊢
    rw [ih, show ((if x.id == bid then { x with reminderSent := true } else x)).id
      = x.id from by split <;> rfl]

theorem handleReminder_preserves_other (db : DB) (now : Int)
    (r : PendingReminder) (eo : EmailOutcome) (mo : MirrorOutcome)
    (b : StudyBlock) (hb : b ∈ db.blocks) (hne : ¬ r.blockId = b.id) :
    b ∈ (handleReminder db now r eo mo).1.blocks := by
  have hmark : b ∈ markReminderSent db.blocks r.blockId := by
    refine List.mem_map.mpr ⟨b, hb, ?_⟩
    rw [if_neg]
    simp only [beq_iff_eq]
    exact fun h => hne h.symm
  cases eo <;> simp only [handleReminder] <;> split
  · exact hb
  · exact hmark
  · exact hb
  · exact hb
  · exact hb
  · exact hb

theorem handleReminder_map_id (db : DB) (now : Int) (r : PendingReminder)
    (eo : EmailOutcome) (mo : MirrorOutcome) :
    ((handleReminder db now r eo mo).1.blocks).map (fun b => b.id) =
      db.blocks.map (fun b => b.id) := by
  cases eo <;> simp only [handleReminder] <;> split
  · rfl
  · exact markReminderSent_map_id db.blocks r.blockId
  · rfl
  · rfl
  · rfl
  · rfl

theorem sendRemindersGo_preserves (now : Int) (eo : Nat → EmailOutcome)
    (mo : Nat → MirrorOutcome) (b : StudyBlock) :
    ∀ (rs : List PendingReminder) (db : DB) (sent : List Nat),
      b ∈ db.blocks → (∀ r ∈ rs, ¬ r.blockId = b.id) →
      b ∈ (sendRemindersGo now eo mo db rs sent).1.blocks := by
  intro rs
  induction rs with
  | nil => intro db sent hb _; exact hb
  | cons r rest ih =>
    intro db sent hb hne
    exact ih _ _
      (handleReminder_preserves_other db now r (eo r.blockId) (mo r.blockId) b hb
        (hne r (List.mem_cons_self _ _)))
      (fun q hq => hne q (List.mem_cons_of_mem _ hq))

theorem sendRemindersGo_map_id (now : Int) (eo : Nat → EmailOutcome)
    (mo : Nat → MirrorOutcome) :
    ∀ (rs : List PendingReminder) (db : DB) (sent : List Nat),
      ((sendRemindersGo now eo mo db rs sent).1.blocks).map (fun b => b.id) =
        db.blocks.map (fun b => b.id) := by
  intro rs
  induction rs with
  | nil => intro db sent; rfl
  | cons r rest ih =>
    intro db sent
    rw [sendRemindersGo, ih, handleReminder_map_id]

theorem sendRemindersGo_sent (now : Int) (eo : Nat → EmailOutcome)
    (mo : Nat → MirrorOutcome) :
    ∀ (rs : List PendingReminder) (db : DB) (sent : List Nat) (x : Nat),
      x ∈ (sendRemindersGo now eo mo db rs sent).2 →
      x ∈ sent ∨ ∃ r ∈ rs, r.blockId = x := by
  intro rs
  induction rs with
  | nil => intro db sent x hx; exact Or.inl hx
  | cons r rest ih =>
    intro db sent x hx
    rcases ih _ _ x hx with hsent | ⟨q, hq, hqx⟩
    · by_cases hbit : (handleReminder db now r (eo r.blockId) (mo r.blockId)).2 = true
      · rw [if_pos hbit] at hsent
        rcases List.mem_append.mp hsent with h | h
        · exact Or.inl h
        · exact Or.inr ⟨r, List.mem_cons_self _ _, (List.mem_singleton.mp h).symm⟩
      · rw [if_neg hbit] at hsent
        exact Or.inl hsent
    · exact Or.inr ⟨q, List.mem_cons_of_mem _ hq, hqx⟩

theorem buildReminders_blockId (users : List UserRec) (bs : List StudyBlock)
    (r : PendingReminder) (hr : r ∈ buildReminders users bs) :
    ∃ b ∈ bs, b.id = r.blockId := by
  obtain ⟨b, hb, hsome⟩ := List.mem_filterMap.mp hr
  refine ⟨b, hb, ?_⟩
  split at hsome
  · cases hsome
  · split at hsome
    · cases hsome
    · cases hsome
      rfl

theorem eq_of_mem_of_idsNodup (db : DB) (h : idsNodup db) {x y : StudyBlock}
    (hx : x ∈ db.blocks) (hy : y ∈ db.blocks) (hid : x.id = y.id) : x = y :=
  List.inj_on_of_nodup_map h hx hy hid

theorem missed_id_not_in_reminders (db : DB) (now : Int) (b : StudyBlock)
    (hnodup : idsNodup db) (hmem : b ∈ db.blocks)
    (hlate : b.startTime < now + 9 * minuteMs) :
    ∀ r ∈ buildReminders db.users (upcomingBlocks db.blocks now),
      ¬ r.blockId = b.id := by
  intro r hr heq
  obtain ⟨c, hc, hcid⟩ := buildReminders_blockId _ _ r hr
  have hcin := (mem_upcomingBlocks db.blocks now c).mp hc
  have hcb : c = b := eq_of_mem_of_idsNodup db hnodup hcin.1 hmem (hcid.trans heq)
  subst hcb
  omega

theorem tick_keeps_missed_block (db : DB) (now : Int) (b : StudyBlock)
    (eo : Nat → EmailOutcome) (mo : Nat → MirrorOutcome)
    (hnodup : idsNodup db) (hmem : b ∈ db.blocks)
    (hlate : b.startTime < now + 9 * minuteMs) :
    b ∈ (processReminders db now eo mo).1.blocks ∧
    idsNodup (processReminders db now eo mo).1 := by
  constructor
  · exact sendRemindersGo_preserves now eo mo b _ db [] hmem
      (missed_id_not_in_reminders db now b hnodup hmem hlate)
  · show ((sendRemindersGo now eo mo db _ []).1.blocks.map (fun b => b.id)).Nodup
    rw [sendRemindersGo_map_id]
    exact hnodup

theorem runTicks_keeps_missed_block (b : StudyBlock) :
    ∀ (ticks : List Tick) (db : DB), idsNodup db → b ∈ db.blocks →
      (∀ t ∈ ticks, b.startTime < t.now + 9 * minuteMs) →
      b ∈ (runTicks db ticks).blocks := by
  intro ticks
  induction ticks with
  | nil => intro db _ hmem _; exact hmem
  | cons t ts ih =>
    intro db hnodup hmem hall
    obtain ⟨hmem2, hnodup2⟩ := tick_keeps_missed_block db t.now b t.eo t.mo
      hnodup hmem (hall t (List.mem_cons_self _ _))
    exact ih _ hnodup2 hmem2 (fun q hq => hall q (List.mem_cons_of_mem _ hq))

/-! ## C8: a block that left the window with the flag still false is never
dispatched afterwards -/

/-- C8: at any tick whose time satisfies startTime < now + 9 min, the block is
not a scan candidate, survives the tick unchanged, no e-mail is recorded for
its id, and across any sequence of such ticks it remains in the store
untouched — its `reminderSent` flag stays false forever. -/
theorem missed_window_is_terminal (db : DB) (now : Int) (b : StudyBlock)
    (eo : Nat → EmailOutcome) (mo : Nat → MirrorOutcome)
    (hnodup : idsNodup db) (hmem : b ∈ db.blocks)
    (hlate : b.startTime < now + 9 * minuteMs) :
    b ∉ upcomingBlocks db.blocks now ∧
    b ∈ (processReminders db now eo mo).1.blocks ∧
    b.id ∉ (processReminders db now eo mo).2 ∧
    (∀ ticks : List Tick, (∀ t ∈ ticks, b.startTime < t.now + 9 * minuteMs) →
      b ∈ (runTicks db ticks).blocks) := by
  refine ⟨?_, (tick_keeps_missed_block db now b eo mo hnodup hmem hlate).1,
    ?_, fun ticks hall => runTicks_keeps_missed_block b ticks db hnodup hmem hall⟩
  · intro hin
    have := (mem_upcomingBlocks db.blocks now b).mp hin
    omega
  · intro hsent
    rcases sendRemindersGo_sent now eo mo _ db [] b.id hsent with h | ⟨r, hr, hrx⟩
    · cases h
    · exact missed_id_not_in_reminders db now b hnodup hmem hlate r hr hrx

/-- Witness for C8: `blockMissed` (start at 0) at a tick 10 minutes later. -/
theorem missed_window_is_terminal_witness :
    idsNodup dbMissed ∧ blockMissed ∈ dbMissed.blocks ∧
    blockMissed.startTime < 10 * minuteMs + 9 * minuteMs ∧
    (blockMissed ∉ upcomingBlocks dbMissed.blocks (10 * minuteMs) ∧
     blockMissed ∈ (processReminders dbMissed (10 * minuteMs)
       (fun _ => .success) (fun _ => .ok)).1.blocks ∧
     blockMissed.id ∉ (processReminders dbMissed (10 * minuteMs)
       (fun _ => .success) (fun _ => .ok)).2 ∧
     (∀ ticks : List Tick,
       (∀ t ∈ ticks, blockMissed.startTime < t.now + 9 * minuteMs) →
       blockMissed ∈ (runTicks dbMissed ticks).blocks)) :=
  ⟨by unfold idsNodup; decide, by decide, by decide,
   missed_window_is_terminal dbMissed (10 * minuteMs) blockMissed
     (fun _ => .success) (fun _ => .ok) (by unfold idsNodup; decide) (by decide)
     (by decide)⟩

theorem monoBlocks_refl (bs : List StudyBlock) : MonoBlocks bs bs :=
  fun _ hb => Or.inl hb

theorem monoBlocks_trans {a b c : List StudyBlock}
    (h1 : MonoBlocks a b) (h2 : MonoBlocks b c) : MonoBlocks a c := by
  intro x hx
  rcases h2 x hx with hxb | ⟨y, hy, rfl⟩
  · exact h1 x hxb
  · rcases h1 y hy with hya | ⟨z, hz, rfl⟩
    · exact Or.inr ⟨y, hya, rfl⟩
    · exact Or.inr ⟨z, hz, rfl⟩

theorem monoBlocks_mark (bs : List StudyBlock) (bid : Nat) :
    MonoBlocks bs (markReminderSent bs bid) := by
  intro b2 hb2
  obtain ⟨b, hb, heq⟩ := List.mem_map.mp hb2
  by_cases hid : (b.id == bid) = true
  · rw [if_pos hid] at heq
    exact Or.inr ⟨b, hb, heq.symm⟩
  · rw [if_neg hid] at heq
    exact Or.inl (heq ▸ hb)

theorem monoBlocks_handleReminder (db : DB) (now : Int) (r : PendingReminder)
    (eo : EmailOutcome) (mo : MirrorOutcome) :
    MonoBlocks db.blocks (handleReminder db now r eo mo).1.blocks := by
  cases eo <;> simp only [handleReminder] <;> split
  · exact monoBlocks_refl _
  · exact monoBlocks_mark _ _
  · exact monoBlocks_refl _
  · exact monoBlocks_refl _
  · exact monoBlocks_refl _
  · exact monoBlocks_refl _

theorem monoBlocks_sendRemindersGo (now : Int) (eo : Nat → EmailOutcome)
    (mo : Nat → MirrorOutcome) :
    ∀ (rs : List PendingReminder) (db : DB) (sent : List Nat),
      MonoBlocks db.blocks (sendRemindersGo now eo mo db rs sent).1.blocks := by
  intro rs
  induction rs with
  | nil => intro db sent; exact monoBlocks_refl _
  | cons r rest ih =>
    intro db sent
    exact monoBlocks_trans
      (monoBlocks_handleReminder db now r (eo r.blockId) (mo r.blockId)) (ih _ _)

theorem postCreate_blocks_cases (db : DB) (now : Int) (uid : Nat)
    (title : String) (s e : Int) (m : MirrorOutcome) :
    (postCreate db now uid title s e m).2.blocks = db.blocks ∨
    ∃ blk : StudyBlock, blk.id = db.nextId ∧
      (postCreate db now uid title s e m).2.blocks = blk :: db.blocks := by
  unfold postCreate
  split
  · exact Or.inl rfl
  · split
    · exact Or.inl rfl
    · split
      · exact Or.inl rfl
      · split
        · exact Or.inl rfl
        · split
          · exact Or.inl rfl
          · split
            · exact Or.inl rfl
            · exact Or.inr ⟨_, rfl, rfl⟩

theorem deleteBlock_blocks_subset (db : DB) (id uid : Nat) (m : MirrorOutcome)
    (b2 : StudyBlock) (hb2 : b2 ∈ (deleteBlock db id uid m).2.blocks) :
    b2 ∈ db.blocks := by
  revert hb2
  unfold deleteBlock
  split
  · exact fun hb2 => hb2
  · exact fun hb2 => (List.eraseP_sublist db.blocks).subset hb2

theorem putUpdate_cases (db : DB) (now : Int) (id uid : Nat) (title : String)
    (s e : Int) (m : MirrorOutcome) :
    ((putUpdate db now id uid title s e m).2 = db ∧
     (putUpdate db now id uid title s e m).1.status ≠ 200) ∨
    (putUpdate db now id uid title s e m).2.blocks =
      db.blocks.map (fun b =>
        if b.id == id then
          { b with title := title.trim, startTime := s, endTime := e,
                   reminderSent := false }
        else b) := by
  unfold putUpdate
  split
  · exact Or.inl ⟨rfl, by simp⟩
  · split
    · exact Or.inl ⟨rfl, by simp⟩
    · split
      · exact Or.inl ⟨rfl, by simp⟩
      · split
        · exact Or.inl ⟨rfl, by simp⟩
        · split
          · exact Or.inl ⟨rfl, by simp⟩
          · split
            · exact Or.inl ⟨rfl, by simp⟩
            · exact Or.inr rfl

/-! ## C1: `reminderSent` is monotone false to true except under a time-edit -/

/-- C1: under distinct block ids and a fresh id counter, every operation other
than the PUT time-edit preserves `reminderSent = true` on a block (the flag is
never reset); the scanner's successful dispatch turns the flag on; and the PUT
time-edit, whenever it succeeds (status 200), is exactly the operation that
writes the flag back to false. -/
theorem reminderSent_monotone_except_time_edit (db : DB) (op : Op)
    (hnodup : idsNodup db) (hgood : goodIds db)
    (hop : op.isTimeEdit = false) :
    (∀ b ∈ db.blocks, b.reminderSent = true →
       ∀ b2 ∈ (step db op).blocks, b2.id = b.id → b2.reminderSent = true) ∧
    (∀ (now : Int) (r : PendingReminder) (mo : MirrorOutcome),
       (∀ l ∈ db.locks,
          lockKeyMatches l "email_reminder" r.blockId r.userId = false) →
       ∀ b ∈ db.blocks, b.id = r.blockId →
         { b with reminderSent := true } ∈
           (handleReminder db now r .success mo).1.blocks) ∧
    (∀ (now : Int) (id uid : Nat) (title : String) (s e : Int)
       (m : MirrorOutcome),
       (putUpdate db now id uid title s e m).1.status = 200 →
       ∀ b2 ∈ (putUpdate db now id uid title s e m).2.blocks, b2.id = id →
         b2.reminderSent = false) := by
  refine ⟨?_, ?_, ?_⟩
  · intro b hb hsent b2 hb2 hid
    cases op with
    | create now uid title s e m =>
      rcases postCreate_blocks_cases db now uid title s e m with hc | ⟨blk, hblk, hc⟩
      · rw [step] at hb2
        rw [hc] at hb2
        rw [eq_of_mem_of_idsNodup db hnodup hb2 hb hid]
        exact hsent
      · rw [step] at hb2
        rw [hc] at hb2
        rcases List.mem_cons.mp hb2 with hb2 | hb2
        · exfalso
          have := hgood b hb
          rw [hb2, hblk] at hid
          omega
        · rw [eq_of_mem_of_idsNodup db hnodup hb2 hb hid]
          exact hsent
    | update now id uid title s e m => simp [Op.isTimeEdit] at hop
    | remove id uid m =>
      have := deleteBlock_blocks_subset db id uid m b2 hb2
      rw [eq_of_mem_of_idsNodup db hnodup this hb hid]
      exact hsent
    | tick now eo mo =>
      rcases monoBlocks_sendRemindersGo now eo mo _ db [] b2 hb2 with hin | ⟨c, hc, rfl⟩
      · rw [eq_of_mem_of_idsNodup db hnodup hin hb hid]
        exact hsent
      · rfl
    | cleanup now =>
      rw [eq_of_mem_of_idsNodup db hnodup hb2 hb hid]
      exact hsent
  · intro now r mo hfree b hb hid
    have hacq := acquireLock_of_free db.locks "email_reminder" r.blockId
      r.userId now 15 hfree
    simp only [handleReminder, hacq]
    simp only [Bool.true_eq_false, if_false]
    exact List.mem_map.mpr ⟨b, hb, by simp [hid]⟩
  · intro now id uid title s e m h200 b2 hb2 hid
    rcases putUpdate_cases db now id uid title s e m with ⟨_, hne⟩ | hbl
    · exact absurd h200 hne
    · rw [hbl] at hb2
      obtain ⟨c, hc, heq⟩ := List.mem_map.mp hb2
      by_cases hcid : (c.id == id) = true
      · rw [if_pos hcid] at heq
        rw [heq.symm]
      · rw [if_neg hcid] at heq
        exfalso
        rw [heq] at hcid
        exact hcid (beq_iff_eq.mpr hid)

/-- Witness for C1 on `dbSent` (its only block has `reminderSent = true`)
under the cleanup operation. -/
theorem reminderSent_monotone_except_time_edit_witness :
    idsNodup dbSent ∧ goodIds dbSent ∧ (Op.cleanup 0).isTimeEdit = false ∧
    ((∀ b ∈ dbSent.blocks, b.reminderSent = true →
        ∀ b2 ∈ (step dbSent (Op.cleanup 0)).blocks, b2.id = b.id →
          b2.reminderSent = true) ∧
     (∀ (now : Int) (r : PendingReminder) (mo : MirrorOutcome),
        (∀ l ∈ dbSent.locks,
           lockKeyMatches l "email_reminder" r.blockId r.userId = false) →
        ∀ b ∈ dbSent.blocks, b.id = r.blockId →
          { b with reminderSent := true } ∈
            (handleReminder dbSent now r .success mo).1.blocks) ∧
     (∀ (now : Int) (id uid : Nat) (title : String) (s e : Int)
        (m : MirrorOutcome),
        (putUpdate dbSent now id uid title s e m).1.status = 200 →
        ∀ b2 ∈ (putUpdate dbSent now id uid title s e m).2.blocks, b2.id = id →
          b2.reminderSent = false)) :=
  ⟨by unfold idsNodup; decide, by unfold goodIds; decide, by decide,
   reminderSent_monotone_except_time_edit dbSent (Op.cleanup 0)
     (by unfold idsNodup; decide) (by unfold goodIds; decide) (by decide)⟩

end QuietHours
